import Mathlib

/-!
Verification of the addon-manifest core of stremio-core
(src/types/addons/manifest.rs): the manifest data model, the
request-matching predicate `Manifest.is_supported`, and the flexible
JSON decoder/encoder for manifests.

The Rust structs and functions are shallowly embedded as Lean
structures and computable functions; `Option` models Rust's `Option`,
`Except String` models `Result<_, D::Error>` of serde decoding.
-/

/-- ManifestResource (manifest.rs): declares one resource kind an addon
offers, optionally narrowed by content types and id prefixes. -/
structure ManifestResource where
  name : String
  types : Option (List String)
  id_prefixes : Option (List String)
deriving DecidableEq, Repr

/-- FromStr for ManifestResource (manifest.rs): a bare string becomes a
descriptor with only the name set; this conversion cannot fail. -/
def ManifestResource.from_str (s : String) : ManifestResource :=
  { name := s, types := none, id_prefixes := none }

/-- ManifestExtraProp (manifest.rs): one extra-parameter declaration of
the modern notation; `values` is advisory only. -/
structure ManifestExtraProp where
  name : String
  is_required : Bool
  values : Option (List String)
deriving DecidableEq, Repr

/-- ManifestExtra (manifest.rs): serde-untagged variant over the modern
notation (Full, key "extra") and the legacy notation (Simple, keys
"extraRequired"/"extraSupported" defaulting to empty). -/
inductive ManifestExtra where
  | Full (props : List ManifestExtraProp)
  | Simple (required : List String) (supported : List String)
deriving DecidableEq, Repr

/-- ManifestCatalog (manifest.rs): one catalog offering. -/
structure ManifestCatalog where
  type_name : String
  id : String
  name : Option String
  extra : ManifestExtra
deriving DecidableEq, Repr

/-- ManifestCatalog::is_extra_supported (manifest.rs): whether the
requested extra pairs are acceptable for this catalog. -/
def ManifestCatalog.is_extra_supported (c : ManifestCatalog)
    (extra : List (String × String)) : Bool :=
  match c.extra with
  | ManifestExtra.Full props =>
      let all_supported := extra.all fun kv => props.any fun e => kv.1 == e.name
      let requirements_satisfied :=
        (props.filter fun e => e.is_required).all fun e =>
          extra.any fun kv => kv.1 == e.name
      all_supported && requirements_satisfied
  | ManifestExtra.Simple required supported =>
      let all_supported := extra.all fun kv => supported.contains kv.1
      let requirements_satisfied :=
        required.all fun kr => extra.any fun kv => kr == kv.1
      all_supported && requirements_satisfied

/-- Modelled from the spec: semver::Version is an external crate; the
spec only requires a semantic version with a canonical string form.
Modelled as the numeric major.minor.patch triple. -/
structure Version where
  major : Nat
  minor : Nat
  patch : Nat
deriving DecidableEq, Repr

/-- Manifest (manifest.rs): the aggregate capability document. -/
structure Manifest where
  id : String
  version : Version
  name : String
  description : Option String
  logo : Option String
  background : Option String
  resources : List ManifestResource
  types : Option (List String)
  id_prefixes : Option (List String)
  catalogs : List ManifestCatalog
deriving DecidableEq, Repr

/-- Modelled from the spec: ResourceRef (the request descriptor, defined
in src/types/addons outside the provided sources) with exactly the
fields `Manifest::is_supported` destructures: resource, type_name, id,
and the extra key-value pairs. -/
structure ResourceRef where
  resource : String
  type_name : String
  id : String
  extra : List (String × String)
deriving DecidableEq, Repr

/-- The `is_types_match` binding of Manifest::is_supported
(manifest.rs): resource-level types, else manifest-level types, else
fail; when a list is found, the requested type must appear in it. -/
def typesMatch (res : ManifestResource) (m : Manifest)
    (type_name : String) : Bool :=
  (res.types.or m.types).elim false fun types =>
    types.any fun t => t == type_name

/-- Rust str::starts_with, modelled as character-list prefix: for valid
UTF-8 strings a byte prefix and a character prefix coincide. -/
def strStartsWith (s p : String) : Bool :=
  p.toList.isPrefixOf s.toList

/-- The `is_id_match` binding of Manifest::is_supported (manifest.rs):
resource-level id_prefixes, else manifest-level id_prefixes, else pass;
when a list is found, the id must start with at least one entry. -/
def idMatch (res : ManifestResource) (m : Manifest) (id : String) : Bool :=
  (res.id_prefixes.or m.id_prefixes).elim true fun ps =>
    ps.any fun p => strStartsWith id p

/-- Manifest::is_supported (manifest.rs): the central matching
predicate. Catalogs are a special case; otherwise the first resource
descriptor with the requested name is consulted. -/
def Manifest.is_supported (m : Manifest) (r : ResourceRef) : Bool :=
  if r.resource == "catalog" then
    m.catalogs.any fun c =>
      c.type_name == r.type_name && c.id == r.id &&
        c.is_extra_supported r.extra
  else
    match m.resources.find? fun res => res.name == r.resource with
    | none => false
    | some res => typesMatch res m r.type_name && idMatch res m r.id

/-- A sample manifest with a single `meta` resource restricted to type
`movie`, used by concrete witnesses. -/
def metaMovieManifest : Manifest :=
  { id := "cinemeta", version := ⟨1, 0, 0⟩, name := "c",
    description := none, logo := none, background := none,
    resources := [{ name := "meta", types := some ["movie"],
                    id_prefixes := none }],
    types := none, id_prefixes := none, catalogs := [] }

example :
    Manifest.is_supported metaMovieManifest
      { resource := "meta", type_name := "movie", id := "tt0234",
        extra := [] } = true := by decide

/-- Unfolds is_supported at a non-catalog request once the first
matching resource descriptor is known. -/
theorem is_supported_find_eq (m : Manifest) (r : ResourceRef)
    (res : ManifestResource) (hres : r.resource ≠ "catalog")
    (hfind : m.resources.find? (fun x => x.name == r.resource) = some res) :
    m.is_supported r = (typesMatch res m r.type_name && idMatch res m r.id) := by
  have hbeq : (r.resource == "catalog") = false := beq_eq_false_iff_ne.mpr hres
  simp [Manifest.is_supported, hbeq, hfind]

/-- Claim C5: for every non-catalog request, is_supported is false when
no declared resource has the requested name, and otherwise equals the
conjunction of the type check and the id check for the first matching
resource descriptor. -/
theorem is_supported_general_resource_case (m : Manifest) (r : ResourceRef)
    (hres : r.resource ≠ "catalog") :
    ((∀ res ∈ m.resources, res.name ≠ r.resource) → m.is_supported r = false)
    ∧ (∀ res, m.resources.find? (fun x => x.name == r.resource) = some res →
        m.is_supported r = (typesMatch res m r.type_name && idMatch res m r.id)) := by
  constructor
  · intro hnone
    have hbeq : (r.resource == "catalog") = false := beq_eq_false_iff_ne.mpr hres
    have hfind : m.resources.find? (fun x => x.name == r.resource) = none := by
      rw [List.find?_eq_none]
      intro x hx
      simpa using hnone x hx
    simp [Manifest.is_supported, hbeq, hfind]
  · intro res hfind
    exact is_supported_find_eq m r res hres hfind

/-- Concrete instance of the C5 theorem: both halves evaluated at
`metaMovieManifest` with an undeclared and a declared resource. -/
theorem is_supported_general_resource_case_witness :
    Manifest.is_supported metaMovieManifest
        { resource := "stream", type_name := "movie", id := "tt0234",
          extra := [] } = false
    ∧ Manifest.is_supported metaMovieManifest
        { resource := "meta", type_name := "movie", id := "tt0234",
          extra := [] }
      = (typesMatch { name := "meta", types := some ["movie"], id_prefixes := none }
          metaMovieManifest "movie"
         && idMatch { name := "meta", types := some ["movie"], id_prefixes := none }
          metaMovieManifest "tt0234") :=
  ⟨(is_supported_general_resource_case metaMovieManifest
      { resource := "stream", type_name := "movie", id := "tt0234", extra := [] }
      (by decide)).1 (by decide),
   (is_supported_general_resource_case metaMovieManifest
      { resource := "meta", type_name := "movie", id := "tt0234", extra := [] }
      (by decide)).2
      { name := "meta", types := some ["movie"], id_prefixes := none } (by decide)⟩

/-- Claim C1: for a non-catalog request with a matching resource
descriptor, the type check is closed-by-default: absent types at both
levels makes is_supported false; when an effective list exists
(resource-level first, manifest-level as fallback), a type outside it
makes is_supported false and a type inside it reduces is_supported to
the id check. -/
theorem type_check_closed_by_default (m : Manifest) (r : ResourceRef)
    (res : ManifestResource) (hres : r.resource ≠ "catalog")
    (hfind : m.resources.find? (fun x => x.name == r.resource) = some res) :
    (res.types = none → m.types = none → m.is_supported r = false)
    ∧ (∀ ts, (res.types = some ts ∨ (res.types = none ∧ m.types = some ts)) →
        ((r.type_name ∉ ts → m.is_supported r = false)
         ∧ (r.type_name ∈ ts → m.is_supported r = idMatch res m r.id))) := by
  have hmain := is_supported_find_eq m r res hres hfind
  constructor
  · intro h1 h2
    simp [hmain, typesMatch, h1, h2]
  · intro ts hts
    have heff : res.types.or m.types = some ts := by
      rcases hts with h | ⟨h1, h2⟩
      · simp [Option.or, h]
      · simp [Option.or, h1, h2]
    constructor
    · intro hnot
      have : typesMatch res m r.type_name = false := by
        rw [typesMatch, heff]
        simp only [Option.elim]
        rw [List.any_eq_false]
        intro t ht
        simp only [beq_iff_eq]
        intro heq
        exact hnot (heq ▸ ht)
      simp [hmain, this]
    · intro hmem
      have : typesMatch res m r.type_name = true := by
        rw [typesMatch, heff]
        simp only [Option.elim]
        rw [List.any_eq_true]
        exact ⟨r.type_name, hmem, by simp⟩
      simp [hmain, this]

/-- Concrete instance of the C1 theorem: absent types at both levels
gives false, and a present list containing the type reduces the result
to the id check. -/
theorem type_check_closed_by_default_witness :
    Manifest.is_supported
        { id := "a", version := ⟨0, 0, 1⟩, name := "a",
          description := none, logo := none, background := none,
          resources := [{ name := "stream", types := none, id_prefixes := none }],
          types := none, id_prefixes := none, catalogs := [] }
        { resource := "stream", type_name := "movie", id := "tt1", extra := [] }
      = false
    ∧ Manifest.is_supported metaMovieManifest
        { resource := "meta", type_name := "movie", id := "tt1", extra := [] }
      = idMatch { name := "meta", types := some ["movie"], id_prefixes := none }
          metaMovieManifest "tt1" :=
  ⟨(type_check_closed_by_default
      { id := "a", version := ⟨0, 0, 1⟩, name := "a",
        description := none, logo := none, background := none,
        resources := [{ name := "stream", types := none, id_prefixes := none }],
        types := none, id_prefixes := none, catalogs := [] }
      { resource := "stream", type_name := "movie", id := "tt1", extra := [] }
      { name := "stream", types := none, id_prefixes := none }
      (by decide) (by decide)).1 rfl rfl,
   ((type_check_closed_by_default metaMovieManifest
      { resource := "meta", type_name := "movie", id := "tt1", extra := [] }
      { name := "meta", types := some ["movie"], id_prefixes := none }
      (by decide) (by decide)).2 ["movie"] (Or.inl rfl)).2 (by decide)⟩

/-- Claim C2: for a non-catalog request with a matching resource
descriptor, the id check is open-by-default: absent id_prefixes at both
levels reduces is_supported to the type check alone; when an effective
list exists (resource-level first, manifest-level as fallback), an id
starting with no entry makes is_supported false, and an id starting
with some entry reduces is_supported to the type check. -/
theorem id_check_open_by_default (m : Manifest) (r : ResourceRef)
    (res : ManifestResource) (hres : r.resource ≠ "catalog")
    (hfind : m.resources.find? (fun x => x.name == r.resource) = some res) :
    (res.id_prefixes = none → m.id_prefixes = none →
      m.is_supported r = typesMatch res m r.type_name)
    ∧ (∀ ps, (res.id_prefixes = some ps ∨
              (res.id_prefixes = none ∧ m.id_prefixes = some ps)) →
        ((∀ p ∈ ps, strStartsWith r.id p = false) → m.is_supported r = false)
        ∧ ((∃ p ∈ ps, strStartsWith r.id p = true) →
            m.is_supported r = typesMatch res m r.type_name)) := by
  have hmain := is_supported_find_eq m r res hres hfind
  constructor
  · intro h1 h2
    simp [hmain, idMatch, h1, h2]
  · intro ps hps
    have heff : res.id_prefixes.or m.id_prefixes = some ps := by
      rcases hps with h | ⟨h1, h2⟩
      · simp [Option.or, h]
      · simp [Option.or, h1, h2]
    constructor
    · intro hnone
      have : idMatch res m r.id = false := by
        rw [idMatch, heff]
        simp only [Option.elim]
        rw [List.any_eq_false]
        intro p hp
        simp [hnone p hp]
      simp [hmain, this]
    · intro hsome
      have : idMatch res m r.id = true := by
        rw [idMatch, heff]
        simp only [Option.elim]
        rw [List.any_eq_true]
        rcases hsome with ⟨p, hp, hstart⟩
        exact ⟨p, hp, hstart⟩
      simp [hmain, this]

/-- A sample manifest with a `stream` resource whose types come from
the manifest level and whose id prefix whitelist is resource-level. -/
def streamPrefixManifest : Manifest :=
  { id := "b", version := ⟨0, 0, 1⟩, name := "b",
    description := none, logo := none, background := none,
    resources := [{ name := "stream", types := none,
                    id_prefixes := some ["tt"] }],
    types := some ["movie"], id_prefixes := none, catalogs := [] }

/-- Concrete instance of the C2 theorem: absent prefixes leave only the
type check, and a matched prefix leaves only the type check. -/
theorem id_check_open_by_default_witness :
    Manifest.is_supported metaMovieManifest
        { resource := "meta", type_name := "movie", id := "anything", extra := [] }
      = typesMatch { name := "meta", types := some ["movie"], id_prefixes := none }
          metaMovieManifest "movie"
    ∧ Manifest.is_supported streamPrefixManifest
        { resource := "stream", type_name := "movie", id := "tt99", extra := [] }
      = typesMatch { name := "stream", types := none, id_prefixes := some ["tt"] }
          streamPrefixManifest "movie" :=
  ⟨(id_check_open_by_default metaMovieManifest
      { resource := "meta", type_name := "movie", id := "anything", extra := [] }
      { name := "meta", types := some ["movie"], id_prefixes := none }
      (by decide) (by decide)).1 rfl rfl,
   ((id_check_open_by_default streamPrefixManifest
      { resource := "stream", type_name := "movie", id := "tt99", extra := [] }
      { name := "stream", types := none, id_prefixes := some ["tt"] }
      (by decide) (by decide)).2 ["tt"] (Or.inl rfl)).2
      ⟨"tt", by decide, by decide⟩⟩

/-- Claim C9: a present-but-empty whitelist on the matched resource
descriptor is a closed whitelist and suppresses the manifest-level
fallback: empty resource-level id_prefixes fail the id check for every
id, and empty resource-level types fail the type check for every
requested type, regardless of the manifest-level lists. -/
theorem empty_whitelist_closes (m : Manifest) (r : ResourceRef)
    (res : ManifestResource) (hres : r.resource ≠ "catalog")
    (hfind : m.resources.find? (fun x => x.name == r.resource) = some res) :
    (res.id_prefixes = some [] → m.is_supported r = false)
    ∧ (res.types = some [] → m.is_supported r = false) := by
  have hmain := is_supported_find_eq m r res hres hfind
  constructor
  · intro h
    simp [hmain, idMatch, Option.or, h]
  · intro h
    simp [hmain, typesMatch, Option.or, h]

/-- Concrete instance of the C9 theorem: a resource with empty types
rejects a type that the manifest-level list does declare, and a
resource with empty id_prefixes rejects an id that a manifest-level
prefix would accept. -/
theorem empty_whitelist_closes_witness :
    Manifest.is_supported
        { id := "e", version := ⟨0, 0, 1⟩, name := "e",
          description := none, logo := none, background := none,
          resources := [{ name := "stream", types := some [],
                          id_prefixes := none }],
          types := some ["movie"], id_prefixes := none, catalogs := [] }
        { resource := "stream", type_name := "movie", id := "tt1", extra := [] }
      = false
    ∧ Manifest.is_supported
        { id := "e", version := ⟨0, 0, 1⟩, name := "e",
          description := none, logo := none, background := none,
          resources := [{ name := "stream", types := some ["movie"],
                          id_prefixes := some [] }],
          types := none, id_prefixes := some ["tt"], catalogs := [] }
        { resource := "stream", type_name := "movie", id := "tt1", extra := [] }
      = false :=
  ⟨(empty_whitelist_closes
      { id := "e", version := ⟨0, 0, 1⟩, name := "e",
        description := none, logo := none, background := none,
        resources := [{ name := "stream", types := some [],
                        id_prefixes := none }],
        types := some ["movie"], id_prefixes := none, catalogs := [] }
      { resource := "stream", type_name := "movie", id := "tt1", extra := [] }
      { name := "stream", types := some [], id_prefixes := none }
      (by decide) (by decide)).2 rfl,
   (empty_whitelist_closes
      { id := "e", version := ⟨0, 0, 1⟩, name := "e",
        description := none, logo := none, background := none,
        resources := [{ name := "stream", types := some ["movie"],
                        id_prefixes := some [] }],
        types := none, id_prefixes := some ["tt"], catalogs := [] }
      { resource := "stream", type_name := "movie", id := "tt1", extra := [] }
      { name := "stream", types := some ["movie"], id_prefixes := some [] }
      (by decide) (by decide)).1 rfl⟩

/-- Claim C3: for a request with resource "catalog", is_supported holds
iff some declared catalog matches on type_name, id and extra support;
resource descriptors and manifest-level types/id_prefixes are not
consulted (equal catalog lists give equal results). -/
theorem is_supported_catalog_case (m m' : Manifest) (r : ResourceRef)
    (h : r.resource = "catalog") :
    (m.is_supported r = true ↔
      ∃ c ∈ m.catalogs, c.type_name = r.type_name ∧ c.id = r.id ∧
        c.is_extra_supported r.extra = true)
    ∧ (m.catalogs = m'.catalogs → m.is_supported r = m'.is_supported r) := by
  constructor
  · simp [Manifest.is_supported, h, List.any_eq_true, Bool.and_eq_true,
      beq_iff_eq, and_assoc]
  · intro hc
    simp [Manifest.is_supported, h, hc]

/-- A sample manifest exposing one movie catalog with legacy extra
notation, used by concrete witnesses. -/
def topCatalogManifest : Manifest :=
  { id := "d", version := ⟨0, 0, 1⟩, name := "d",
    description := none, logo := none, background := none,
    resources := [{ name := "stream", types := some ["series"],
                    id_prefixes := none }],
    types := some ["series"], id_prefixes := none,
    catalogs := [{ type_name := "movie", id := "top", name := none,
                   extra := ManifestExtra.Simple ["genre"] ["genre", "year"] }] }

/-- Concrete instance of the C3 theorem: the sample catalog manifest
accepts a catalog request carrying its required genre key, and the
result ignores the resource descriptors entirely. -/
theorem is_supported_catalog_case_witness :
    Manifest.is_supported topCatalogManifest
      { resource := "catalog", type_name := "movie", id := "top",
        extra := [("genre", "Action")] } = true :=
  (is_supported_catalog_case topCatalogManifest topCatalogManifest
      { resource := "catalog", type_name := "movie", id := "top",
        extra := [("genre", "Action")] } rfl).1.mpr (by decide)

/-- Replacing every values field leaves the name-search of a property
list unchanged. -/
theorem any_name_values_map (props : List ManifestExtraProp)
    (vf : ManifestExtraProp → Option (List String)) (x : String) :
    ((props.map fun p => { p with values := vf p }).any fun e => x == e.name)
      = props.any fun e => x == e.name := by
  induction props with
  | nil => rfl
  | cons a l ih => simp [ih]

/-- Replacing every values field leaves the required-properties pass
unchanged, for any predicate on the property name. -/
theorem all_required_values_map (props : List ManifestExtraProp)
    (vf : ManifestExtraProp → Option (List String)) (q : String → Bool) :
    (((props.map fun p => { p with values := vf p }).filter
        fun e => e.is_required).all fun e => q e.name)
      = ((props.filter fun e => e.is_required).all fun e => q e.name) := by
  induction props with
  | nil => rfl
  | cons a l ih =>
    by_cases ha : a.is_required = true
    · simp [List.filter_cons, ha, ih]
    · simp [List.filter_cons, ha, ih]

/-- Claim C4: is_extra_supported is, for Full, "every requested key is
a declared property name and every required property name is
requested"; for Simple, "every requested key is in supported and every
required entry is requested"; and the values lists are never
consulted. -/
theorem is_extra_supported_spec (c : ManifestCatalog)
    (extra : List (String × String)) :
    (∀ props, c.extra = ManifestExtra.Full props →
      (c.is_extra_supported extra = true ↔
        ((∀ kv ∈ extra, ∃ p ∈ props, kv.1 = p.name)
         ∧ ∀ p ∈ props, p.is_required = true → ∃ kv ∈ extra, kv.1 = p.name)))
    ∧ (∀ required supported, c.extra = ManifestExtra.Simple required supported →
      (c.is_extra_supported extra = true ↔
        ((∀ kv ∈ extra, kv.1 ∈ supported)
         ∧ ∀ k ∈ required, ∃ kv ∈ extra, k = kv.1)))
    ∧ (∀ vf : ManifestExtraProp → Option (List String), ∀ props,
        c.extra = ManifestExtra.Full props →
        ManifestCatalog.is_extra_supported
          { c with
            extra := (ManifestExtra.Full
              (props.map fun p => { p with values := vf p })) } extra
          = c.is_extra_supported extra) := by
  refine ⟨?_, ?_, ?_⟩
  · intro props h
    simp only [ManifestCatalog.is_extra_supported, h]
    simp [List.all_eq_true, List.any_eq_true, Bool.and_eq_true,
      List.mem_filter, beq_iff_eq, and_imp]
    intro _
    constructor
    · intro hb p hp hreq
      rcases hb p hp with hf | he
      · simp [hreq] at hf
      · exact he
    · intro hc p hp
      by_cases hr : p.is_required = true
      · exact Or.inr (hc p hp hr)
      · exact Or.inl (by simpa using hr)
  · intro required supported h
    simp only [ManifestCatalog.is_extra_supported, h]
    simp [List.all_eq_true, List.any_eq_true, Bool.and_eq_true, beq_iff_eq]
  · intro vf props h
    simp only [ManifestCatalog.is_extra_supported, h]
    congr 1
    · have : (fun kv : String × String =>
          (props.map fun p => { p with values := vf p }).any
            fun e => kv.1 == e.name)
          = fun kv : String × String => props.any fun e => kv.1 == e.name :=
        funext fun kv => any_name_values_map props vf kv.1
      rw [this]
    · exact all_required_values_map props vf
        fun nm => extra.any fun kv => kv.1 == nm

/-- Concrete instance of the C4 theorem: a Full-notation catalog with a
required genre property, matched against a request carrying genre. -/
theorem is_extra_supported_spec_witness :
    ManifestCatalog.is_extra_supported
      { type_name := "movie", id := "top", name := none,
        extra := ManifestExtra.Full
          [{ name := "genre", is_required := true,
             values := some ["Action"] }] }
      [("genre", "Action")] = true :=
  ((is_extra_supported_spec
      { type_name := "movie", id := "top", name := none,
        extra := ManifestExtra.Full
          [{ name := "genre", is_required := true,
             values := some ["Action"] }] }
      [("genre", "Action")]).1
      [{ name := "genre", is_required := true, values := some ["Action"] }]
      rfl).mpr (by decide)

/-- Claim C10: is_supported is a deterministic total boolean function:
identical inputs give identical results, and every evaluation is one
of the two booleans. -/
theorem is_supported_deterministic_total (m m' : Manifest)
    (r r' : ResourceRef) (hm : m = m') (hr : r = r') :
    m.is_supported r = m'.is_supported r'
    ∧ (m.is_supported r = true ∨ m.is_supported r = false) := by
  subst hm
  subst hr
  exact ⟨rfl, Or.symm (Bool.dichotomy (m.is_supported r))⟩

/-- Concrete instance of the C10 theorem at the sample manifest. -/
theorem is_supported_deterministic_total_witness :
    Manifest.is_supported metaMovieManifest
        { resource := "meta", type_name := "movie", id := "tt0234", extra := [] }
      = Manifest.is_supported metaMovieManifest
        { resource := "meta", type_name := "movie", id := "tt0234", extra := [] }
    ∧ (Manifest.is_supported metaMovieManifest
        { resource := "meta", type_name := "movie", id := "tt0234", extra := [] }
        = true
       ∨ Manifest.is_supported metaMovieManifest
        { resource := "meta", type_name := "movie", id := "tt0234", extra := [] }
        = false) :=
  is_supported_deterministic_total metaMovieManifest metaMovieManifest
    { resource := "meta", type_name := "movie", id := "tt0234", extra := [] }
    { resource := "meta", type_name := "movie", id := "tt0234", extra := [] }
    rfl rfl

/-- A JSON value, the wire shape seen by the serde decoder. -/
inductive Json where
  | null
  | bool (b : Bool)
  | num (n : Int)
  | str (s : String)
  | arr (elems : List Json)
  | obj (fields : List (String × Json))
deriving Repr

/-- Field lookup in a JSON object, first occurrence of the key. -/
def getField (fields : List (String × Json)) (k : String) : Option Json :=
  (fields.find? fun p => p.1 == k).map Prod.snd

/-- serde: decode a JSON string. -/
def decodeString : Json → Except String String
  | Json.str s => Except.ok s
  | _ => Except.error "expected a string"

/-- serde: decode a JSON boolean. -/
def decodeBool : Json → Except String Bool
  | Json.bool b => Except.ok b
  | _ => Except.error "expected a boolean"

/-- serde: decode the elements of a Vec of strings, left to right,
stopping at the first failure. -/
def decodeStringList : List Json → Except String (List String)
  | [] => Except.ok []
  | j :: rest =>
      match decodeString j, decodeStringList rest with
      | Except.ok s, Except.ok t => Except.ok (s :: t)
      | Except.error e, _ => Except.error e
      | _, Except.error e => Except.error e

/-- serde: decode a Vec of strings from a JSON array. -/
def decodeListString : Json → Except String (List String)
  | Json.arr xs => decodeStringList xs
  | _ => Except.error "expected a sequence of strings"

/-- serde: an optional field; missing or explicit null is None, any
other value must decode. -/
def decodeOptField (f : Json → Except String α) :
    Option Json → Except String (Option α)
  | none => Except.ok none
  | some Json.null => Except.ok none
  | some j => (f j).map some

/-- serde: a required field; missing is a decode error. -/
def decodeReqField (f : Json → Except String α)
    (fields : List (String × Json)) (k : String) : Except String α :=
  match getField fields k with
  | none => Except.error ("missing field " ++ k)
  | some j => f j

/-- string_or_struct for ManifestResource (manifest.rs): a JSON string
goes through FromStr (never fails); a JSON object is the derived
camelCase struct decoder; any other shape is rejected by the visitor,
which only accepts a string or a map. -/
def ManifestResource.deserialize : Json → Except String ManifestResource
  | Json.str s => Except.ok (ManifestResource.from_str s)
  | Json.obj fields =>
      match decodeReqField decodeString fields "name",
          decodeOptField decodeListString (getField fields "types"),
          decodeOptField decodeListString (getField fields "idPrefixes") with
      | Except.ok nm, Except.ok tys, Except.ok idp =>
          Except.ok { name := nm, types := tys, id_prefixes := idp }
      | Except.error e, _, _ => Except.error e
      | _, Except.error e, _ => Except.error e
      | _, _, Except.error e => Except.error e
  | _ => Except.error "string or map"

/-- vec_manifest_resource (manifest.rs): decode each resources entry
through string_or_struct. -/
def decodeResourceList : List Json → Except String (List ManifestResource)
  | [] => Except.ok []
  | j :: rest =>
      match ManifestResource.deserialize j, decodeResourceList rest with
      | Except.ok r, Except.ok t => Except.ok (r :: t)
      | Except.error e, _ => Except.error e
      | _, Except.error e => Except.error e

/-- vec_manifest_resource (manifest.rs), outer shape: the resources
field must be a JSON array. -/
def vec_manifest_resource : Json → Except String (List ManifestResource)
  | Json.arr xs => decodeResourceList xs
  | _ => Except.error "expected a sequence"

/-- Derived decoder of ManifestExtraProp (manifest.rs): name required,
is_required defaulting to false when missing, values optional. -/
def ManifestExtraProp.deserialize : Json → Except String ManifestExtraProp
  | Json.obj fields =>
      match decodeReqField decodeString fields "name",
          (match getField fields "isRequired" with
           | none => Except.ok false
           | some j => decodeBool j),
          decodeOptField decodeListString (getField fields "values") with
      | Except.ok nm, Except.ok rq, Except.ok vs =>
          Except.ok { name := nm, is_required := rq, values := vs }
      | Except.error e, _, _ => Except.error e
      | _, Except.error e, _ => Except.error e
      | _, _, Except.error e => Except.error e
  | _ => Except.error "expected a map"

/-- Decode the Vec of extra properties of the Full notation. -/
def decodePropList : List Json → Except String (List ManifestExtraProp)
  | [] => Except.ok []
  | j :: rest =>
      match ManifestExtraProp.deserialize j, decodePropList rest with
      | Except.ok p, Except.ok t => Except.ok (p :: t)
      | Except.error e, _ => Except.error e
      | _, Except.error e => Except.error e

/-- The value of the "extra" key must be a JSON array of properties. -/
def decodeProps : Json → Except String (List ManifestExtraProp)
  | Json.arr xs => decodePropList xs
  | _ => Except.error "expected a sequence of extra properties"

/-- A legacy list field of the Simple notation: serde(default) makes a
missing field the empty list; a present field must decode. -/
def decodeDefaultList : Option Json → Except String (List String)
  | none => Except.ok []
  | some j => decodeListString j

/-- The Full attempt of the untagged ManifestExtra decoder: requires
the modern "extra" key and a decodable property list. -/
def decodeFull : Json → Except String ManifestExtra
  | Json.obj fields =>
      match getField fields "extra" with
      | none => Except.error "missing field extra"
      | some j => (decodeProps j).map ManifestExtra.Full
  | _ => Except.error "expected a map"

/-- The Simple attempt of the untagged ManifestExtra decoder: the two
legacy fields, each defaulting to the empty list when missing; unknown
keys are ignored. -/
def decodeSimple : Json → Except String ManifestExtra
  | Json.obj fields =>
      match decodeDefaultList (getField fields "extraRequired"),
          decodeDefaultList (getField fields "extraSupported") with
      | Except.ok req, Except.ok sup =>
          Except.ok (ManifestExtra.Simple req sup)
      | Except.error e, _ => Except.error e
      | _, Except.error e => Except.error e
  | _ => Except.error "expected a map"

/-- serde(untagged) for ManifestExtra (manifest.rs): the variants are
tried in declaration order, Full first, and the first success wins. -/
def ManifestExtra.deserialize (j : Json) : Except String ManifestExtra :=
  match decodeFull j with
  | Except.ok v => Except.ok v
  | Except.error _ =>
      match decodeSimple j with
      | Except.ok v => Except.ok v
      | Except.error _ =>
          Except.error "data did not match any variant of untagged enum ManifestExtra"

/-- Derived decoder of ManifestCatalog (manifest.rs): type/id required,
name optional; serde(flatten) hands every remaining key to the
untagged ManifestExtra decoder. -/
def ManifestCatalog.deserialize : Json → Except String ManifestCatalog
  | Json.obj fields =>
      match decodeReqField decodeString fields "type",
          decodeReqField decodeString fields "id",
          decodeOptField decodeString (getField fields "name"),
          ManifestExtra.deserialize (Json.obj (fields.filter fun p =>
            p.1 != "type" && p.1 != "id" && p.1 != "name")) with
      | Except.ok ty, Except.ok cid, Except.ok nm, Except.ok ex =>
          Except.ok { type_name := ty, id := cid, name := nm, extra := ex }
      | Except.error e, _, _, _ => Except.error e
      | _, Except.error e, _, _ => Except.error e
      | _, _, Except.error e, _ => Except.error e
      | _, _, _, Except.error e => Except.error e
  | _ => Except.error "expected a map"

/-- Decode the Vec of catalogs. -/
def decodeCatalogList : List Json → Except String (List ManifestCatalog)
  | [] => Except.ok []
  | j :: rest =>
      match ManifestCatalog.deserialize j, decodeCatalogList rest with
      | Except.ok c, Except.ok t => Except.ok (c :: t)
      | Except.error e, _ => Except.error e
      | _, Except.error e => Except.error e

/-- The catalogs field must be a JSON array of catalogs. -/
def decodeCatalogs : Json → Except String (List ManifestCatalog)
  | Json.arr xs => decodeCatalogList xs
  | _ => Except.error "expected a sequence of catalogs"

/-- Decimal digit rendering for the semver wire form. -/
def digitChar : Nat → Char
  | 0 => '0'
  | 1 => '1'
  | 2 => '2'
  | 3 => '3'
  | 4 => '4'
  | 5 => '5'
  | 6 => '6'
  | 7 => '7'
  | 8 => '8'
  | _ => '9'

/-- Decimal digit reading for the semver wire form, by code point. -/
def charDigit (c : Char) : Option Nat :=
  if c.toNat < 48 ∨ 57 < c.toNat then none else some (c.toNat - 48)

/-- The decimal character rendering of a natural number, most
significant digit first. -/
def natChars (n : Nat) : List Char :=
  if n = 0 then ['0'] else (Nat.digits 10 n).reverse.map digitChar

/-- Read a digit character list back into digit values. -/
def charsToDigits : List Char → Option (List Nat)
  | [] => some []
  | c :: rest =>
      match charDigit c, charsToDigits rest with
      | some d, some ds => some (d :: ds)
      | _, _ => none

/-- Parse a nonempty all-digit character list as a natural number. -/
def parseNatChars (cs : List Char) : Option Nat :=
  if cs.isEmpty then none
  else
    match charsToDigits cs with
    | some ds => some (Nat.ofDigits 10 ds.reverse)
    | none => none

/-- Modelled from the spec: the canonical wire string of a semantic
version, major.minor.patch in decimal (semver crate Display). -/
def Version.toWire (v : Version) : String :=
  String.mk (natChars v.major ++ '.' :: (natChars v.minor ++ '.' :: natChars v.patch))

/-- Modelled from the spec: parsing the numeric core of a semantic
version string, three dot-separated decimal components (semver crate
FromStr); anything else is a decode error. -/
def Version.parse (s : String) : Except String Version :=
  let cs := s.toList
  let a := cs.takeWhile fun c => c != '.'
  match cs.dropWhile fun c => c != '.' with
  | [] => Except.error "expected a dot"
  | _ :: rest1 =>
      let b := rest1.takeWhile fun c => c != '.'
      match rest1.dropWhile fun c => c != '.' with
      | [] => Except.error "expected a second dot"
      | _ :: rest2 =>
          match parseNatChars a, parseNatChars b, parseNatChars rest2 with
          | some x, some y, some z => Except.ok { major := x, minor := y, patch := z }
          | _, _, _ => Except.error "invalid version component"

/-- The version field holds the semver string. -/
def Version.deserialize : Json → Except String Version
  | Json.str s => Version.parse s
  | _ => Except.error "expected a semver string"

/-- Derived decoder of Manifest (manifest.rs): camelCase fields,
resources through vec_manifest_resource, catalogs defaulting to the
empty list when missing. -/
def Manifest.deserialize : Json → Except String Manifest
  | Json.obj fields =>
      match decodeReqField decodeString fields "id",
          decodeReqField Version.deserialize fields "version",
          decodeReqField decodeString fields "name" with
      | Except.ok mid, Except.ok ver, Except.ok nm =>
          (match decodeOptField decodeString (getField fields "description"),
              decodeOptField decodeString (getField fields "logo"),
              decodeOptField decodeString (getField fields "background") with
          | Except.ok ds, Except.ok lg, Except.ok bg =>
              (match decodeReqField vec_manifest_resource fields "resources",
                  decodeOptField decodeListString (getField fields "types"),
                  decodeOptField decodeListString (getField fields "idPrefixes"),
                  (match getField fields "catalogs" with
                   | none => Except.ok []
                   | some j => decodeCatalogs j) with
              | Except.ok ress, Except.ok tys, Except.ok idp, Except.ok cats =>
                  Except.ok { id := mid, version := ver, name := nm,
                              description := ds, logo := lg, background := bg,
                              resources := ress, types := tys,
                              id_prefixes := idp, catalogs := cats }
              | Except.error e, _, _, _ => Except.error e
              | _, Except.error e, _, _ => Except.error e
              | _, _, Except.error e, _ => Except.error e
              | _, _, _, Except.error e => Except.error e)
          | Except.error e, _, _ => Except.error e
          | _, Except.error e, _ => Except.error e
          | _, _, Except.error e => Except.error e)
      | Except.error e, _, _ => Except.error e
      | _, Except.error e, _ => Except.error e
      | _, _, Except.error e => Except.error e
  | _ => Except.error "expected a map"

/-- serde Serialize for an optional string: absent is explicit null. -/
def encodeOptStr : Option String → Json
  | none => Json.null
  | some s => Json.str s

/-- serde Serialize for a Vec of strings. -/
def encodeListString (l : List String) : Json :=
  Json.arr (l.map Json.str)

/-- serde Serialize for an optional Vec of strings: absent is null. -/
def encodeOptListString : Option (List String) → Json
  | none => Json.null
  | some l => encodeListString l

/-- Derived Serialize of ManifestResource (manifest.rs), camelCase. -/
def ManifestResource.serialize (r : ManifestResource) : Json :=
  Json.obj [("name", Json.str r.name),
            ("types", encodeOptListString r.types),
            ("idPrefixes", encodeOptListString r.id_prefixes)]

/-- Derived Serialize of ManifestExtraProp (manifest.rs), camelCase. -/
def ManifestExtraProp.serialize (p : ManifestExtraProp) : Json :=
  Json.obj [("name", Json.str p.name),
            ("isRequired", Json.bool p.is_required),
            ("values", encodeOptListString p.values)]

/-- Serialize of the untagged ManifestExtra (manifest.rs): the fields
of the active variant, flattened into the catalog object. -/
def ManifestExtra.serializeFields : ManifestExtra → List (String × Json)
  | ManifestExtra.Full props =>
      [("extra", Json.arr (props.map ManifestExtraProp.serialize))]
  | ManifestExtra.Simple required supported =>
      [("extraRequired", encodeListString required),
       ("extraSupported", encodeListString supported)]

/-- Derived Serialize of ManifestCatalog (manifest.rs): type, id, name,
then the flattened extra fields. -/
def ManifestCatalog.serialize (c : ManifestCatalog) : Json :=
  Json.obj ([("type", Json.str c.type_name),
             ("id", Json.str c.id),
             ("name", encodeOptStr c.name)] ++ c.extra.serializeFields)

/-- Derived Serialize of Manifest (manifest.rs), camelCase, absent
options as explicit null. -/
def Manifest.serialize (m : Manifest) : Json :=
  Json.obj [("id", Json.str m.id),
            ("version", Json.str m.version.toWire),
            ("name", Json.str m.name),
            ("description", encodeOptStr m.description),
            ("logo", encodeOptStr m.logo),
            ("background", encodeOptStr m.background),
            ("resources", Json.arr (m.resources.map ManifestResource.serialize)),
            ("types", encodeOptListString m.types),
            ("idPrefixes", encodeOptListString m.id_prefixes),
            ("catalogs", Json.arr (m.catalogs.map ManifestCatalog.serialize))]

/-- Claim C7: a bare-string resources entry always decodes to a
descriptor with only the name set, ["stream"] decodes exactly like
[{"name":"stream"}], and any non-string non-object entry is a decode
error. -/
theorem resources_string_or_struct :
    (∀ s, ManifestResource.deserialize (Json.str s)
        = Except.ok (ManifestResource.from_str s))
    ∧ vec_manifest_resource (Json.arr [Json.str "stream"])
        = Except.ok [ManifestResource.from_str "stream"]
    ∧ vec_manifest_resource (Json.arr [Json.obj [("name", Json.str "stream")]])
        = Except.ok [ManifestResource.from_str "stream"]
    ∧ (∀ j : Json, (∀ s, j ≠ Json.str s) → (∀ f, j ≠ Json.obj f) →
        ∃ e, ManifestResource.deserialize j = Except.error e) := by
  refine ⟨fun s => rfl, rfl, rfl, ?_⟩
  intro j hs ho
  cases j with
  | null => exact ⟨_, rfl⟩
  | bool b => exact ⟨_, rfl⟩
  | num n => exact ⟨_, rfl⟩
  | str s => exact absurd rfl (hs s)
  | arr xs => exact ⟨_, rfl⟩
  | obj f => exact absurd rfl (ho f)

/-- Concrete instance of the C7 theorem: a null resources entry is a
decode error. -/
theorem resources_string_or_struct_witness :
    ∃ e, ManifestResource.deserialize Json.null = Except.error e :=
  resources_string_or_struct.2.2.2 Json.null
    (fun s h => Json.noConfusion h) (fun f h => Json.noConfusion h)

/-- Claim C6 counterexample: an object whose "extra" key holds a
non-sequence value still decodes successfully, to the Simple variant,
because the untagged decoder falls back to the Simple shape when the
Full attempt fails; so the Full variant is not produced for every
object carrying the modern key. -/
theorem extra_key_present_yet_simple :
    getField [("extra", Json.num 5)] "extra" = some (Json.num 5)
    ∧ ManifestExtra.deserialize (Json.obj [("extra", Json.num 5)])
        = Except.ok (ManifestExtra.Simple [] []) :=
  ⟨rfl, rfl⟩

/-- Claim C6 as amended: decoding yields Full exactly when the "extra"
key is present with a decodable property list; when the key is absent
or its value fails to decode, the Simple variant is produced from
extraRequired/extraSupported, each defaulting to empty when absent; an
object with none of the three keys decodes to Simple with two empty
lists. -/
theorem extra_decoding_disciplined (fields : List (String × Json)) :
    (∀ v props, getField fields "extra" = some v →
        decodeProps v = Except.ok props →
        ManifestExtra.deserialize (Json.obj fields)
          = Except.ok (ManifestExtra.Full props))
    ∧ (∀ req sup,
        (getField fields "extra" = none
         ∨ ∃ v e, getField fields "extra" = some v
             ∧ decodeProps v = Except.error e) →
        decodeDefaultList (getField fields "extraRequired") = Except.ok req →
        decodeDefaultList (getField fields "extraSupported") = Except.ok sup →
        ManifestExtra.deserialize (Json.obj fields)
          = Except.ok (ManifestExtra.Simple req sup))
    ∧ (getField fields "extra" = none →
       getField fields "extraRequired" = none →
       getField fields "extraSupported" = none →
        ManifestExtra.deserialize (Json.obj fields)
          = Except.ok (ManifestExtra.Simple [] [])) := by
  refine ⟨?_, ?_, ?_⟩
  · intro v props hv hp
    simp [ManifestExtra.deserialize, decodeFull, hv, hp, Except.map]
  · intro req sup hfail hreq hsup
    have hsimple : decodeSimple (Json.obj fields)
        = Except.ok (ManifestExtra.Simple req sup) := by
      simp [decodeSimple, hreq, hsup]
    rcases hfail with hnone | ⟨v, e, hv, he⟩
    · simp [ManifestExtra.deserialize, decodeFull, hnone, hsimple]
    · simp [ManifestExtra.deserialize, decodeFull, hv, he, Except.map, hsimple]
  · intro h1 h2 h3
    simp [ManifestExtra.deserialize, decodeFull, decodeSimple,
      decodeDefaultList, h1, h2, h3]

/-- Concrete instance of the amended C6 theorem: legacy notation with
only extraRequired present decodes to Simple with the supported list
defaulted to empty. -/
theorem extra_decoding_disciplined_witness :
    ManifestExtra.deserialize
        (Json.obj [("extraRequired", Json.arr [Json.str "genre"])])
      = Except.ok (ManifestExtra.Simple ["genre"] []) :=
  (extra_decoding_disciplined [("extraRequired", Json.arr [Json.str "genre"])]).2.1
    ["genre"] [] (Or.inl rfl) rfl rfl

/-- Reading back a rendered decimal digit recovers the digit. -/
theorem charDigit_digitChar (d : Nat) (hd : d < 10) :
    charDigit (digitChar d) = some d := by
  interval_cases d <;> decide

/-- A rendered decimal digit is never the dot separator. -/
theorem digitChar_ne_dot (d : Nat) (hd : d < 10) : digitChar d ≠ '.' := by
  interval_cases d <;> decide

/-- Reading back a rendered digit list recovers the digit values. -/
theorem charsToDigits_map_digitChar (l : List Nat) (h : ∀ d ∈ l, d < 10) :
    charsToDigits (l.map digitChar) = some l := by
  induction l with
  | nil => rfl
  | cons a t ih =>
    have ha : a < 10 := h a (List.mem_cons_self a t)
    have ht : ∀ d ∈ t, d < 10 := fun d hd => h d (List.mem_cons_of_mem a hd)
    simp [charsToDigits, charDigit_digitChar a ha, ih ht]

/-- The decimal rendering of a natural number is nonempty. -/
theorem natChars_ne_nil (n : Nat) : natChars n ≠ [] := by
  by_cases h : n = 0
  · simp [natChars, h]
  · simp [natChars, h, List.map_eq_nil_iff, List.reverse_eq_nil_iff,
      Nat.digits_ne_nil_iff_ne_zero]

/-- The decimal rendering of a natural number never contains a dot. -/
theorem natChars_no_dot (n : Nat) : ∀ c ∈ natChars n, c ≠ '.' := by
  intro c hc
  by_cases h : n = 0
  · simp [natChars, h] at hc
    simp [hc]
  · simp only [natChars, if_neg h, List.mem_map, List.mem_reverse] at hc
    obtain ⟨d, hd, rfl⟩ := hc
    exact digitChar_ne_dot d (Nat.digits_lt_base (by norm_num) hd)

/-- Parsing the decimal rendering of a natural number recovers it. -/
theorem parseNatChars_natChars (n : Nat) : parseNatChars (natChars n) = some n := by
  by_cases h : n = 0
  · subst h
    rfl
  · have hne : natChars n ≠ [] := natChars_ne_nil n
    have hdig : ∀ d ∈ (Nat.digits 10 n).reverse, d < 10 := by
      intro d hd
      exact Nat.digits_lt_base (by norm_num) (List.mem_reverse.mp hd)
    rw [parseNatChars, if_neg (by simpa [List.isEmpty_iff] using hne)]
    rw [natChars, if_neg h,
      charsToDigits_map_digitChar (Nat.digits 10 n).reverse hdig]
    simp [Nat.ofDigits_digits]

/-- takeWhile for not-dot stops exactly at the first dot. -/
theorem takeWhile_not_dot (A B : List Char) (hA : ∀ c ∈ A, c ≠ '.') :
    (A ++ '.' :: B).takeWhile (fun c => c != '.') = A := by
  induction A with
  | nil => simp [List.takeWhile]
  | cons a t ih =>
    have ha : a ≠ '.' := hA a (List.mem_cons_self a t)
    have ht : ∀ c ∈ t, c ≠ '.' := fun c hc => hA c (List.mem_cons_of_mem a hc)
    have hab : (a != '.') = true := bne_iff_ne.mpr ha
    simp [List.takeWhile, hab, ih ht]

/-- dropWhile for not-dot leaves the first dot and everything after. -/
theorem dropWhile_not_dot (A B : List Char) (hA : ∀ c ∈ A, c ≠ '.') :
    (A ++ '.' :: B).dropWhile (fun c => c != '.') = '.' :: B := by
  induction A with
  | nil => simp [List.dropWhile]
  | cons a t ih =>
    have ha : a ≠ '.' := hA a (List.mem_cons_self a t)
    have ht : ∀ c ∈ t, c ≠ '.' := fun c hc => hA c (List.mem_cons_of_mem a hc)
    have hab : (a != '.') = true := bne_iff_ne.mpr ha
    simp [List.dropWhile, hab, ih ht]

/-- Parsing the canonical wire string of a version recovers it. -/
theorem version_parse_toWire (v : Version) :
    Version.parse v.toWire = Except.ok v := by
  obtain ⟨x, y, z⟩ := v
  have hx := natChars_no_dot x
  have hy := natChars_no_dot y
  have hz := natChars_no_dot z
  have htake1 : ((natChars x ++ '.' :: (natChars y ++ '.' :: natChars z)).takeWhile
      (fun c => c != '.')) = natChars x :=
    takeWhile_not_dot _ _ hx
  have hdrop1 : ((natChars x ++ '.' :: (natChars y ++ '.' :: natChars z)).dropWhile
      (fun c => c != '.')) = '.' :: (natChars y ++ '.' :: natChars z) :=
    dropWhile_not_dot _ _ hx
  have htake2 : ((natChars y ++ '.' :: natChars z).takeWhile
      (fun c => c != '.')) = natChars y :=
    takeWhile_not_dot _ _ hy
  have hdrop2 : ((natChars y ++ '.' :: natChars z).dropWhile
      (fun c => c != '.')) = '.' :: natChars z :=
    dropWhile_not_dot _ _ hy
  have htoList : (Version.toWire ⟨x, y, z⟩).toList
      = natChars x ++ '.' :: (natChars y ++ '.' :: natChars z) := rfl
  rw [Version.parse]
  simp only [htoList, htake1, hdrop1, htake2, hdrop2,
    parseNatChars_natChars]

/-- Decoding an encoded Vec of strings recovers it. -/
theorem decodeStringList_map (l : List String) :
    decodeStringList (l.map Json.str) = Except.ok l := by
  induction l with
  | nil => rfl
  | cons a t ih => simp [decodeStringList, decodeString, ih]

/-- Decoding an encoded string list value recovers it. -/
theorem decodeListString_encode (l : List String) :
    decodeListString (encodeListString l) = Except.ok l := by
  simp [encodeListString, decodeListString, decodeStringList_map]

/-- Decoding an encoded optional string list recovers it. -/
theorem decodeOptField_optListString (o : Option (List String)) :
    decodeOptField decodeListString (some (encodeOptListString o))
      = Except.ok o := by
  cases o with
  | none => rfl
  | some l =>
    simp [encodeOptListString, encodeListString, decodeOptField,
      decodeListString, decodeStringList_map, Except.map]

/-- Decoding an encoded optional string recovers it. -/
theorem decodeOptField_optStr (o : Option String) :
    decodeOptField decodeString (some (encodeOptStr o)) = Except.ok o := by
  cases o with
  | none => rfl
  | some s => simp [encodeOptStr, decodeOptField, decodeString, Except.map]

/-- Decoding an encoded resource descriptor recovers it. -/
theorem resource_roundtrip (r : ManifestResource) :
    ManifestResource.deserialize r.serialize = Except.ok r := by
  obtain ⟨nm, tys, idp⟩ := r
  simp [ManifestResource.serialize, ManifestResource.deserialize,
    decodeReqField, getField, decodeString,
    decodeOptField_optListString]

/-- Decoding an encoded Vec of resource descriptors recovers it. -/
theorem decodeResourceList_map (l : List ManifestResource) :
    decodeResourceList (l.map ManifestResource.serialize) = Except.ok l := by
  induction l with
  | nil => rfl
  | cons a t ih => simp [decodeResourceList, resource_roundtrip, ih]

/-- Decoding an encoded extra property recovers it. -/
theorem prop_roundtrip (p : ManifestExtraProp) :
    ManifestExtraProp.deserialize p.serialize = Except.ok p := by
  obtain ⟨nm, rq, vs⟩ := p
  simp [ManifestExtraProp.serialize, ManifestExtraProp.deserialize,
    decodeReqField, getField, decodeString, decodeBool,
    decodeOptField_optListString]

/-- Decoding an encoded Vec of extra properties recovers it. -/
theorem decodePropList_map (l : List ManifestExtraProp) :
    decodePropList (l.map ManifestExtraProp.serialize) = Except.ok l := by
  induction l with
  | nil => rfl
  | cons a t ih => simp [decodePropList, prop_roundtrip, ih]

/-- Decoding the flattened fields of an encoded ExtraSpec recovers the
variant that was serialized. -/
theorem extra_roundtrip (e : ManifestExtra) :
    ManifestExtra.deserialize (Json.obj e.serializeFields) = Except.ok e := by
  cases e with
  | Full props =>
    simp [ManifestExtra.serializeFields, ManifestExtra.deserialize,
      decodeFull, getField, decodeProps, decodePropList_map, Except.map]
  | Simple required supported =>
    simp [ManifestExtra.serializeFields, ManifestExtra.deserialize,
      decodeFull, decodeSimple, getField, decodeDefaultList,
      encodeListString, decodeListString, decodeStringList_map]

/-- Decoding an encoded catalog recovers it. -/
theorem catalog_roundtrip (c : ManifestCatalog) :
    ManifestCatalog.deserialize c.serialize = Except.ok c := by
  obtain ⟨ty, cid, nm, ex⟩ := c
  have hfilter :
      (([("type", Json.str ty), ("id", Json.str cid),
         ("name", encodeOptStr nm)] ++ ex.serializeFields).filter fun p =>
        p.1 != "type" && p.1 != "id" && p.1 != "name") = ex.serializeFields := by
    cases ex <;> simp [ManifestExtra.serializeFields, List.filter_append]
  have hextra := extra_roundtrip ex
  cases ex with
  | Full props =>
    simp only [ManifestExtra.serializeFields] at hextra
    simp [ManifestCatalog.serialize, ManifestCatalog.deserialize,
      decodeReqField, getField, decodeString, decodeOptField_optStr,
      hfilter, hextra, ManifestExtra.serializeFields]
  | Simple required supported =>
    simp only [ManifestExtra.serializeFields] at hextra
    simp [ManifestCatalog.serialize, ManifestCatalog.deserialize,
      decodeReqField, getField, decodeString, decodeOptField_optStr,
      hfilter, hextra, ManifestExtra.serializeFields]

/-- Decoding an encoded Vec of catalogs recovers it. -/
theorem decodeCatalogList_map (l : List ManifestCatalog) :
    decodeCatalogList (l.map ManifestCatalog.serialize) = Except.ok l := by
  induction l with
  | nil => rfl
  | cons a t ih => simp [decodeCatalogList, catalog_roundtrip, ih]

/-- Claim C8: decoding the encoding of any in-memory manifest recovers
it exactly, for every combination of absent/present optional fields
and both ExtraSpec variants. -/
theorem manifest_roundtrip (m : Manifest) :
    Manifest.deserialize m.serialize = Except.ok m := by
  obtain ⟨mid, ver, nm, ds, lg, bg, ress, tys, idp, cats⟩ := m
  simp [Manifest.serialize, Manifest.deserialize, decodeReqField, getField,
    decodeString, Version.deserialize, version_parse_toWire,
    decodeOptField_optStr, decodeOptField_optListString,
    vec_manifest_resource, decodeResourceList_map,
    decodeCatalogs, decodeCatalogList_map]
